import Mathlib

/-!
Shallow embedding of the hybrid faculty-search engine in
`src/front/search_engine_improved.py` (class `EnhancedFacultySearchEngine`),
with theorems checking the natural-language specification against it.

Python strings are modelled as Lean `String`, floats as `ℚ` (apart from the
Euclidean norm, which needs `ℝ`), `None`/NaN inputs as `Option`, and raised
exceptions as `Except` error values.  The embedding model and the FAISS index
are opaque collaborators, modelled as function parameters.
-/

namespace FacultySearch

/-! ### Python string primitives -/

/-- Python whitespace characters (the class stripped by `str.strip()` and
split on by `str.split()`). -/
def isPyWs (c : Char) : Bool :=
  c = ' ' || c = '\t' || c = '\n' || c = '\x0d' || c = '\x0b' || c = '\x0c'

/-- Python `str.strip()` on the underlying character list. -/
def stripChars (s : List Char) : List Char :=
  ((s.dropWhile isPyWs).reverse.dropWhile isPyWs).reverse

/-- Python `str.strip()`. -/
def pyStrip (s : String) : String := String.mk (stripChars s.data)

/-- Python `str.lower()` (ASCII letters, as produced by this data set). -/
def lowerS (s : String) : String := String.mk (s.data.map Char.toLower)

/-- Python substring test `a in b` on character lists: `true` iff `a`
occurs contiguously in `b` (the empty string occurs in everything). -/
def substrChars (a : List Char) : List Char → Bool
  | [] => a.isEmpty
  | c :: t => a.isPrefixOf (c :: t) || substrChars a t

/-- Python substring test `a in b` on strings. -/
def substrS (a b : String) : Bool := substrChars a.data b.data

/-- Maximal runs of characters satisfying `p`, in order (runs of characters
failing `p` act as separators and are discarded). -/
def runsAux (p : Char → Bool) : List Char → List Char → List (List Char)
  | [], acc => if acc.isEmpty then [] else [acc.reverse]
  | c :: t, acc =>
    if p c then runsAux p t (c :: acc)
    else if acc.isEmpty then runsAux p t [] else acc.reverse :: runsAux p t []

/-- Maximal runs of characters satisfying `p`. -/
def splitRuns (p : Char → Bool) (s : List Char) : List (List Char) :=
  runsAux p s []

/-- Python `str.split()` with no separator: maximal non-whitespace runs. -/
def splitWsS (s : String) : List String :=
  (splitRuns (fun c => !isPyWs c) s.data).map String.mk

/-! ### TextNormalizer (`_clean_text`, `_is_meaningful_content`) -/

/-- The literal placeholder list in `_clean_text`
(`['', 'not provided', 'Not Provided', 'N/A', 'NA']`) — note it is an
exact, case-sensitive membership test in the source. -/
def cleanLiterals : List String := ["", "not provided", "Not Provided", "N/A", "NA"]

/-- `_clean_text` on a present (non-NaN) string. -/
def cleanText (t : String) : String :=
  if t ∈ cleanLiterals then "" else pyStrip t

/-- `_clean_text` on a possibly-missing (NaN / `None`) value:
`pd.isna` sends missing values to the empty string. -/
def cleanTextOpt : Option String → String
  | none => ""
  | some t => cleanText t

/-- The placeholder list in `_is_meaningful_content`. -/
def meaningfulPlaceholders : List String := ["not provided", "n/a", "na", "none", "nil", "-"]

/-- `_is_meaningful_content`: cleaned, lower-cased text must be non-empty,
not a placeholder, and longer than 5 characters. -/
def isMeaningful (t : String) : Bool :=
  let cleaned := lowerS (cleanText t)
  if cleaned.isEmpty then false
  else decide (cleaned ∉ meaningfulPlaceholders) && decide (cleaned.length > 5)

/-! ### Records (`load_and_process_data`) -/

/-- A raw input row (columns of the input table); `none` models a missing
(NaN) cell. -/
structure RawRecord where
  name : Option String
  areaSpecialization : Option String
  biography : Option String
  publications : Option String
  facultyEducation : Option String
  email : Option String
  number : Option String
  address : Option String
deriving DecidableEq

/-- A processed row: the five text columns cleaned in place plus the
derived `*_text` representation columns, as built by
`load_and_process_data`.  `email`, `number`, `address` are not in
`text_columns` and pass through unchanged. -/
structure ProcessedRecord where
  name : String
  areaSpecialization : String
  biography : String
  publications : String
  facultyEducation : String
  email : Option String
  number : Option String
  address : Option String
  name_text : String
  specialization_text : String
  biography_text : String
  publications_text : String
  education_text : String
  combined_text : String
deriving DecidableEq

/-- `_create_weighted_text`: specialization text 3×, publications text 2×,
then biography, education, name texts, joined with spaces. -/
def createWeightedText (spec pubs bio edu name : String) : String :=
  String.intercalate " "
    ((if spec ≠ "" then [spec, spec, spec] else []) ++
     (if pubs ≠ "" then [pubs, pubs] else []) ++
     (if bio ≠ "" then [bio] else []) ++
     (if edu ≠ "" then [edu] else []) ++
     (if name ≠ "" then [name] else []))

/-- `load_and_process_data` applied to one row: clean the five text
columns, then build the per-field representation texts.  `name_text` and
`specialization_text` are gated on the cleaned value being non-empty;
`biography_text`, `publications_text`, `education_text` are gated on
`_is_meaningful_content`. -/
def processRecord (r : RawRecord) : ProcessedRecord :=
  let name := cleanTextOpt r.name
  let spec := cleanTextOpt r.areaSpecialization
  let bio := cleanTextOpt r.biography
  let pubs := cleanTextOpt r.publications
  let edu := cleanTextOpt r.facultyEducation
  let name_text := if name ≠ "" then "Professor " ++ name else ""
  let specialization_text :=
    if spec ≠ "" then
      "Expert in " ++ spec ++ ". Research focus: " ++ spec ++ ". Specialization: " ++ spec
    else ""
  let biography_text :=
    if isMeaningful bio then "Background and experience: " ++ bio else ""
  let publications_text :=
    if isMeaningful pubs then "Research publications and contributions: " ++ pubs else ""
  let education_text :=
    if isMeaningful edu then "Academic credentials: " ++ edu else ""
  { name := name, areaSpecialization := spec, biography := bio,
    publications := pubs, facultyEducation := edu,
    email := r.email, number := r.number, address := r.address,
    name_text := name_text, specialization_text := specialization_text,
    biography_text := biography_text, publications_text := publications_text,
    education_text := education_text,
    combined_text :=
      createWeightedText specialization_text publications_text biography_text
        education_text name_text }

/-! ### KeywordScorer (`_extract_keywords`, `_keyword_match_score`) -/

/-- The stop-word set of `_extract_keywords`. -/
def stopWords : List String :=
  ["the", "and", "for", "with", "this", "that", "from", "have", "has",
   "are", "was", "were", "been", "being", "about", "into", "through",
   "during", "before", "after", "above", "below", "between", "under",
   "again", "further", "then", "once", "here", "there", "when", "where",
   "why", "how", "all", "both", "each", "few", "more", "most", "other",
   "some", "such", "only", "own", "same", "than", "too", "very", "can",
   "will", "just", "should", "now"]

/-- Regex word characters (`\w` over this ASCII data): letters, digits,
underscore. -/
def isWordChar (c : Char) : Bool := c.isAlphanum || c = '_'

/-- Lower-case ASCII letter. -/
def isLowerAlpha (c : Char) : Bool := 'a' ≤ c && c ≤ 'z'

/-- `_extract_keywords`: lower-case, take the matches of
`\b[a-z]{3,}\b` (maximal word-character runs that are entirely lower-case
letters, of length ≥ 3), drop stop words; the result is a set, modelled
as a deduplicated list. -/
def extractKeywords (text : String) : List String :=
  let lowered := text.data.map Char.toLower
  let toks := (splitRuns isWordChar lowered).filter
    (fun run => run.length ≥ 3 && run.all isLowerAlpha)
  ((toks.map String.mk).filter (fun w => w ∉ stopWords)).dedup

/-- The field/weight pairs of `_keyword_match_score`, in the dict's
iteration order, paired with each record's (cleaned) column value. -/
def kwFieldValues (p : ProcessedRecord) : List (String × ℚ) :=
  [(p.areaSpecialization, 3), (p.publications, 2), (p.biography, 2),
   (p.facultyEducation, 3/2), (p.name, 1/2)]

/-- `_keyword_match_score`: 0 when the query has no keywords; otherwise,
for each weighted field whose lower-cased content is meaningful, add
`weight × |Q ∩ C| / |Q|` whenever the intersection is non-empty. -/
def keywordMatchScore (query : String) (p : ProcessedRecord) : ℚ :=
  let qk := extractKeywords query
  if qk.isEmpty then 0
  else
    (kwFieldValues p).foldl
      (fun acc cw =>
        let content := lowerS cw.1
        if isMeaningful content then
          let ck := extractKeywords content
          let m := (qk.filter (fun w => w ∈ ck)).length
          if m > 0 then acc + cw.2 * ((m : ℚ) / (qk.length : ℚ)) else acc
        else acc) 0

/-! ### QueryExpander (`_expand_query`) -/

/-- The expansion table, in the dict's iteration order (note the trailing
space in the `ml` expansion, as in the source). -/
def expansions : List (String × String) :=
  [("ml", "machine learning "),
   ("ai", "artificial intelligence"),
   ("nlp", "natural language processing"),
   ("renewable energy", "renewable energy sustainable energy clean energy solar wind"),
   ("wireless", "wireless communication telecommunication"),
   ("quantum", "quantum computing quantum mechanics quantum physics"),
   ("data", "data science data analytics big data data mining"),
   ("cyber", "cybersecurity security network security information security"),
   ("cloud", "cloud computing distributed systems"),
   ("iot", "internet of things iot embedded systems sensors"),
   ("blockchain", "blockchain distributed ledger cryptocurrency")]

/-- `_expand_query`: append the expansion of the first trigger that is a
substring of the lower-cased query; unchanged if no trigger matches. -/
def expandQuery (query : String) : String :=
  let ql := lowerS query
  match expansions.find? (fun te => substrS te.1 ql) with
  | some te => query ++ " " ++ te.2
  | none => query

/-! ### HybridRanker (`search`, lines 250–324) -/

/-- One entry of the list returned by `search` (the per-result dict). -/
structure SearchResult where
  name : String
  specialization : String
  biography : String
  publications : String
  education : String
  email : Option String
  number : Option String
  address : Option String
  final_score : ℚ
  semantic_score : ℚ
  keyword_score : ℚ
  boost_applied : ℚ
  rank : Nat
deriving DecidableEq

/-- The boost of lines 289–296: 1.3 iff the lower-cased query is a
substring of the lower-cased specialization, or any whitespace-split
token of the lower-cased query is; else 1.0. -/
def boostFor (query spec : String) : ℚ :=
  let ql := lowerS query
  let sl := lowerS spec
  if substrS ql sl || (splitWsS ql).any (fun w => substrS w sl) then 13/10 else 1

/-- The publications display value (line 304): truncate to 500 characters
with an ellipsis when longer than 500; otherwise the full text when
meaningful, else `"Not provided"`. -/
def pubDisplay (pubs : String) : String :=
  if pubs.length > 500 then String.mk (pubs.data.take 500) ++ "..."
  else if isMeaningful pubs then pubs else "Not provided"

/-- Lines 275–314 for a single candidate `(record, semantic_score)`:
keyword score (0 when hybrid is off), fusion, boost, and the result
record (`rank` is assigned later; 0 until then). -/
def scoreCandidate (query : String) (use_hybrid : Bool) (p : ProcessedRecord)
    (semantic : ℚ) : SearchResult :=
  let keyword_score : ℚ := if use_hybrid then keywordMatchScore query p else 0
  let fused : ℚ :=
    if use_hybrid && keyword_score > 0 then
      3/4 * semantic + 1/4 * keyword_score
    else semantic
  let boost := boostFor query p.areaSpecialization
  { name := p.name,
    specialization := p.areaSpecialization,
    biography := if isMeaningful p.biography then p.biography else "Not provided",
    publications := pubDisplay p.publications,
    education := if isMeaningful p.facultyEducation then p.facultyEducation else "Not provided",
    email := p.email, number := p.number, address := p.address,
    final_score := fused * boost,
    semantic_score := semantic,
    keyword_score := keyword_score,
    boost_applied := boost,
    rank := 0 }

/-- Stable descending insertion: place `x` before the first element whose
`final_score` it reaches, keeping earlier elements of equal score first —
the order `list.sort(key=final_score, reverse=True)` produces. -/
def insertDesc (x : SearchResult) : List SearchResult → List SearchResult
  | [] => [x]
  | y :: ys => if y.final_score ≤ x.final_score then x :: y :: ys else y :: insertDesc x ys

/-- Stable sort by `final_score` descending (line 317). -/
def sortDesc : List SearchResult → List SearchResult
  | [] => []
  | x :: xs => insertDesc x (sortDesc xs)

/-- Lines 321–322: assign 1-based ranks in list order, starting at `i`. -/
def assignRanksFrom (i : Nat) : List SearchResult → List SearchResult
  | [] => []
  | r :: rs => { r with rank := i } :: assignRanksFrom (i + 1) rs

/-- Assign ranks 1, 2, … in list order. -/
def assignRanks (rs : List SearchResult) : List SearchResult := assignRanksFrom 1 rs

/-- Lines 274–324 after candidate retrieval: score each candidate, sort by
final score descending, truncate to `top_k`, assign ranks. -/
def searchCore (query : String) (top_k : Nat) (use_hybrid : Bool)
    (cands : List (ProcessedRecord × ℚ)) : List SearchResult :=
  assignRanks
    ((sortDesc (cands.map (fun (c : ProcessedRecord × ℚ) =>
        scoreCandidate query use_hybrid c.1 c.2))).take top_k)

/-- The engine state fields `search` and `get_statistics` read: whether
`self.model` / `self.index` are set (`index` carries `ntotal` when built),
the processed record table, the embedding dimension, and whether
per-field embeddings exist. -/
structure EngineState where
  model : Bool
  index : Option Nat
  facultyData : Option (List ProcessedRecord)
  embDim : Option Nat
  multiField : Bool
deriving DecidableEq

/-- The state right after `__init__`: nothing loaded or built. -/
def freshEngine : EngineState :=
  { model := false, index := none, facultyData := none, embDim := none,
    multiField := false }

/-- The error `search` raises (the `ValueError` of lines 259–260, the
spec's `NotInitialized` kind). -/
inductive SearchErr where
  | notInit
deriving DecidableEq

/-- `search` (lines 250–324).  The embedding model composed with the FAISS
index query is the opaque collaborator `retrieve`, taking the expanded
query and `search_k` and returning `(row, semantic_score)` pairs; indices
out of range are dropped (FAISS returns in-range rows).  Raising is
modelled as `Except.error`. -/
def search (retrieve : String → Nat → List (Nat × ℚ)) (e : EngineState)
    (query : String) (top_k : Nat) (use_hybrid : Bool) :
    Except SearchErr (List SearchResult) :=
  if e.model = false ∨ e.index = none then .error .notInit
  else
    let data := e.facultyData.getD []
    let expanded := expandQuery query
    let search_k := min (top_k * 3) data.length
    let hits := retrieve expanded search_k
    let cands := hits.filterMap (fun h => (data.get? h.1).map (fun p => (p, h.2)))
    .ok (searchCore query top_k use_hybrid cands)

/-! ### `get_statistics` (lines 365–381) -/

/-- The statistics mapping: base entries plus, when `faculty_data` is
loaded, per-field meaningful-coverage counts `(field, meaningful, total)`
(the source formats these as percentage strings). -/
structure Stats where
  total_faculty : Nat
  embedding_dimension : Nat
  model_name : String
  index_size : Nat
  multi_field_embeddings : Bool
  coverage : List (String × Nat × Nat)
deriving DecidableEq

/-- Column access for the four coverage fields. -/
def fieldValue (p : ProcessedRecord) : String → String
  | "areaSpecialization" => p.areaSpecialization
  | "biography" => p.biography
  | "publications" => p.publications
  | "facultyEducation" => p.facultyEducation
  | _ => ""

/-- The coverage field list of line 376. -/
def coverageFields : List String :=
  ["areaSpecialization", "biography", "publications", "facultyEducation"]

/-- `get_statistics`: never raises; absent state contributes zero counts
(`0` dimension, `0` index size, no coverage rows). -/
def get_statistics (model_name : String) (e : EngineState) : Stats :=
  { total_faculty := (e.facultyData.map List.length).getD 0,
    embedding_dimension := e.embDim.getD 0,
    model_name := model_name,
    index_size := e.index.getD 0,
    multi_field_embeddings := e.multiField,
    coverage :=
      match e.facultyData with
      | none => []
      | some data =>
        coverageFields.map (fun f =>
          (f, (data.filter (fun p => isMeaningful (fieldValue p f))).length, data.length)) }

/-! ### EmbeddingAggregator (`generate_embeddings`, lines 122–157) -/

/-- A record's embedding: one fixed-dimension real-valued vector, modelled
over ℚ (the exact arithmetic of the float operations). -/
def Vec (d : Nat) : Type := Fin d → ℚ

/-- The zero vector (`np.zeros_like`). -/
def vecZero (d : Nat) : Vec d := fun _ => 0

/-- Pointwise vector addition. -/
def vecAdd {d : Nat} (v w : Vec d) : Vec d := fun i => v i + w i

/-- Scalar multiple. -/
def vecSMul {d : Nat} (a : ℚ) (v : Vec d) : Vec d := fun i => a * v i

/-- `self.field_weights` (lines 27–33), in the dict's iteration order. -/
def fieldWeights : List (String × ℚ) :=
  [("specialization", 3), ("publications", 2), ("biography", 2),
   ("education", 3/2), ("name", 1/2)]

/-- `total_weight = sum(self.field_weights.values())` (line 145). -/
def totalWeight : ℚ := (fieldWeights.map Prod.snd).sum

/-- The `*_text` columns `load_and_process_data` always creates
(lines 65–81), which determine which fields get per-field embeddings
(line 133). -/
def processedColumns : List String :=
  ["name_text", "specialization_text", "biography_text", "publications_text",
   "education_text", "combined_text"]

/-- A field has an entry in `self.field_embeddings` iff its text column
exists (line 133). -/
def fieldPresent (field : String) : Bool := (field ++ "_text") ∈ processedColumns

/-- Lines 143–148: starting from zeros, add `(weight / total_weight) ·
fieldEmbedding` for every weighted field present in `field_embeddings`. -/
def aggregateEmb (d : Nat) (present : String → Bool) (emb : String → Vec d) : Vec d :=
  fieldWeights.foldl
    (fun acc fw => if present fw.1 then vecAdd acc (vecSMul (fw.2 / totalWeight) (emb fw.1)) else acc)
    (vecZero d)

/-- One record's combined embedding in multi-field mode: every weighted
field's text column exists, so every field is present. -/
def generateEmbMulti (d : Nat) (emb : String → Vec d) : Vec d :=
  aggregateEmb d fieldPresent emb

/-- The sum of the weights of the fields actually present (the spec's
divisor in §4.3). -/
def presentWeightSum (present : String → Bool) : ℚ :=
  ((fieldWeights.filter (fun fw => present fw.1)).map Prod.snd).sum

/-! ### VectorIndex adapter normalization (`build_index` lines 163–166,
`search` lines 266–267) -/

/-- Sum of squares of a vector's entries. -/
def sumSq (v : List ℝ) : ℝ := (v.map (fun x => x ^ 2)).sum

/-- The Euclidean norm `np.linalg.norm`. -/
noncomputable def euclidNorm (v : List ℝ) : ℝ := Real.sqrt (sumSq v)

open scoped Classical in
/-- The divisor `build_index` uses (lines 164–165): the norm, with zero
norms clamped to 1 (`norms[norms == 0] = 1`).  A NaN would arise exactly
when a zero divisor meets a zero numerator, so absence of NaN is the
divisor being non-zero. -/
noncomputable def buildDivisor (v : List ℝ) : ℝ :=
  if euclidNorm v = 0 then 1 else euclidNorm v

/-- Row normalization in `build_index` (line 166). -/
noncomputable def buildNormalize (v : List ℝ) : List ℝ :=
  v.map (fun x => x / buildDivisor v)

/-- The divisor `search` uses for the query embedding (line 267): the raw
norm, with no zero clamp. -/
noncomputable def queryDivisor (v : List ℝ) : ℝ := euclidNorm v

/-- Query normalization in `search` (line 267). -/
noncomputable def queryNormalize (v : List ℝ) : List ℝ :=
  v.map (fun x => x / queryDivisor v)

/-! ### Helper lemmas -/

theorem append_left_ne_empty (s t : String) (h : s ≠ "") : s ++ t ≠ "" := by
  intro heq
  apply h
  have hd : s.data ++ t.data = [] := by
    simpa [String.ext_iff] using heq
  exact String.ext (List.append_eq_nil.mp hd).1

theorem substrChars_nil_left (l : List Char) : substrChars [] l = true := by
  cases l <;> simp [substrChars, List.isPrefixOf, List.isEmpty]

theorem extractKeywords_empty : extractKeywords "" = [] := rfl

/-! ### Concrete instances used by witnesses and counterexamples -/

/-- A raw row whose specialization is non-empty but, at 3 characters, not
meaningful; all other cells missing. -/
def rawAbc : RawRecord :=
  { name := none, areaSpecialization := some "abc", biography := none,
    publications := none, facultyEducation := none, email := none,
    number := none, address := none }

/-- A raw row with a meaningful specialization. -/
def rawML : RawRecord :=
  { name := some "Alice Kumar", areaSpecialization := some "machine learning systems",
    biography := none, publications := none, facultyEducation := none,
    email := some "alice@example.edu", number := none, address := none }

/-- The processed row for `rawML`. -/
def pML : ProcessedRecord := processRecord rawML

/-- An initialized one-record engine. -/
def engineOne : EngineState :=
  { model := true, index := some 1, facultyData := some [pML], embDim := some 4,
    multiField := true }

/-- A retrieval collaborator returning the single record with semantic
score 1/2. -/
def retrieveOne : String → Nat → List (Nat × ℚ) := fun _ _ => [(0, 1/2)]

/-- The result list of a concrete one-candidate query on `engineOne`. -/
def rsOne : List SearchResult :=
  (search retrieveOne engineOne "a" 1 true).toOption.getD []

/-- The single entry of `rsOne`. -/
def rOne : SearchResult := { scoreCandidate "a" true pML (1/2) with rank := 1 }

/-- The result list of the empty-query call on `engineOne`. -/
def rsEmptyQ : List SearchResult :=
  (search retrieveOne engineOne "" 5 true).toOption.getD []

/-! ### Claim C7 — `_clean_text` -/

/-- C7 counterexample: the claim says placeholder tokens are compared
case-insensitively, so `clean "n/a"` would be `""`; the source's
membership list is case-sensitive (`['', 'not provided', 'Not Provided',
'N/A', 'NA']`), and `_clean_text "n/a"` returns `"n/a"`. -/
theorem C7_clean_case_cex : cleanText "n/a" = "n/a" ∧ cleanText "n/a" ≠ "" := by
  decide

/-- C7 (amended): `clean` returns the empty string for a missing (NaN)
value and for inputs exactly equal to one of the literal placeholders
`''`, `'not provided'`, `'Not Provided'`, `'N/A'`, `'NA'` (a
case-sensitive comparison); every other input is returned trimmed. -/
theorem C7_clean_literal_placeholders :
    cleanTextOpt none = "" ∧
    (∀ s : String, s ∈ cleanLiterals → cleanTextOpt (some s) = "") ∧
    (∀ s : String, s ∉ cleanLiterals → cleanTextOpt (some s) = pyStrip s) := by
  refine ⟨rfl, ?_, ?_⟩ <;> intro s h <;> simp [cleanTextOpt, cleanText, h]

/-- Witness for C7 at the placeholder `"N/A"` and the non-placeholder
`"  machine learning "`. -/
theorem C7_clean_literal_placeholders_witness :
    ("N/A" ∈ cleanLiterals ∧ cleanTextOpt (some "N/A") = "") ∧
    ("  machine learning " ∉ cleanLiterals ∧
      cleanTextOpt (some "  machine learning ") = pyStrip "  machine learning ") :=
  ⟨⟨by decide, C7_clean_literal_placeholders.2.1 "N/A" (by decide)⟩,
   ⟨by decide, C7_clean_literal_placeholders.2.2 "  machine learning " (by decide)⟩⟩

/-! ### Claim C6 — per-field representation texts -/

/-- C6 counterexample: the claim says only `name` escapes the
meaningfulness gate, but `specialization_text` is also gated merely on
the cleaned value being non-empty: the 3-character specialization
`"abc"` is not meaningful, yet its phrase-templated text is produced. -/
theorem C6_specialization_gate_cex :
    (processRecord rawAbc).specialization_text =
      "Expert in abc. Research focus: abc. Specialization: abc" ∧
    isMeaningful (processRecord rawAbc).areaSpecialization = false := by
  decide

/-- C6 (amended): `biography_text`, `publications_text` and
`education_text` are phrase-templated exactly when the cleaned field is
meaningful (else empty), while `name_text` AND `specialization_text` are
phrase-templated exactly when the cleaned field is non-empty, even if
not meaningful. -/
theorem C6_field_text_gating (r : RawRecord) :
    ((processRecord r).biography_text ≠ "" ↔
      isMeaningful (processRecord r).biography = true) ∧
    ((processRecord r).publications_text ≠ "" ↔
      isMeaningful (processRecord r).publications = true) ∧
    ((processRecord r).education_text ≠ "" ↔
      isMeaningful (processRecord r).facultyEducation = true) ∧
    ((processRecord r).name_text ≠ "" ↔ (processRecord r).name ≠ "") ∧
    ((processRecord r).specialization_text ≠ "" ↔
      (processRecord r).areaSpecialization ≠ "") ∧
    (isMeaningful (processRecord r).biography = true →
      (processRecord r).biography_text =
        "Background and experience: " ++ (processRecord r).biography) ∧
    (isMeaningful (processRecord r).biography = false →
      (processRecord r).biography_text = "") := by
  simp only [processRecord]
  refine ⟨?_, ?_, ?_, ?_, ?_, ?_, ?_⟩
  · by_cases h : isMeaningful (cleanTextOpt r.biography) <;>
      simp [h, append_left_ne_empty "Background and experience: " _ (by decide)]
  · by_cases h : isMeaningful (cleanTextOpt r.publications) <;>
      simp [h, append_left_ne_empty "Research publications and contributions: " _ (by decide)]
  · by_cases h : isMeaningful (cleanTextOpt r.facultyEducation) <;>
      simp [h, append_left_ne_empty "Academic credentials: " _ (by decide)]
  · by_cases h : cleanTextOpt r.name = "" <;>
      simp [h, append_left_ne_empty "Professor " _ (by decide)]
  · by_cases h : cleanTextOpt r.areaSpecialization = "" <;>
      simp [h, String.ext_iff]
  · intro h; simp [h]
  · intro h; simp [h]

/-- Witness for C6 at `rawML` (meaningful specialization, missing
biography). -/
theorem C6_field_text_gating_witness :
    ((processRecord rawML).biography_text ≠ "" ↔
      isMeaningful (processRecord rawML).biography = true) ∧
    (isMeaningful (processRecord rawML).biography = false →
      (processRecord rawML).biography_text = "") ∧
    isMeaningful (processRecord rawML).biography = false :=
  ⟨(C6_field_text_gating rawML).1, (C6_field_text_gating rawML).2.2.2.2.2.2,
   by decide⟩

/-! ### Structural lemmas about the ranking pipeline -/

/-- The fields of a result that the sort and rank-assignment steps leave
untouched. -/
def scoresOf (r : SearchResult) : ℚ × ℚ × ℚ × ℚ × String :=
  (r.final_score, r.semantic_score, r.keyword_score, r.boost_applied, r.specialization)

theorem mem_insertDesc {x y : SearchResult} {l : List SearchResult} :
    y ∈ insertDesc x l ↔ y = x ∨ y ∈ l := by
  induction l with
  | nil => simp [insertDesc]
  | cons z zs ih =>
    by_cases h : z.final_score ≤ x.final_score
    · simp [insertDesc, h]
    · simp [insertDesc, h, ih]
      tauto

theorem mem_sortDesc {y : SearchResult} {l : List SearchResult} :
    y ∈ sortDesc l ↔ y ∈ l := by
  induction l with
  | nil => simp [sortDesc]
  | cons z zs ih => simp [sortDesc, mem_insertDesc, ih]

theorem pairwise_insertDesc {x : SearchResult} {l : List SearchResult}
    (h : List.Pairwise (fun a b => b.final_score ≤ a.final_score) l) :
    List.Pairwise (fun a b => b.final_score ≤ a.final_score) (insertDesc x l) := by
  induction l with
  | nil => simp [insertDesc]
  | cons z zs ih =>
    rcases List.pairwise_cons.mp h with ⟨hz, hzs⟩
    by_cases hc : z.final_score ≤ x.final_score
    · rw [insertDesc, if_pos hc]
      refine List.pairwise_cons.mpr ⟨?_, h⟩
      intro y hy
      rcases List.mem_cons.mp hy with rfl | hy
      · exact hc
      · exact le_trans (hz y hy) hc
    · rw [insertDesc, if_neg hc]
      refine List.pairwise_cons.mpr ⟨?_, ih hzs⟩
      intro y hy
      rcases mem_insertDesc.mp hy with rfl | hy
      · exact le_of_lt (lt_of_not_le hc)
      · exact hz y hy

theorem pairwise_sortDesc (l : List SearchResult) :
    List.Pairwise (fun a b => b.final_score ≤ a.final_score) (sortDesc l) := by
  induction l with
  | nil => simp [sortDesc]
  | cons z zs ih => exact pairwise_insertDesc ih

theorem scoresOf_assignRanksFrom (i : Nat) (l : List SearchResult) :
    (assignRanksFrom i l).map scoresOf = l.map scoresOf := by
  induction l generalizing i with
  | nil => rfl
  | cons r rs ih => simp [assignRanksFrom, scoresOf, ih]

theorem length_assignRanksFrom (i : Nat) (l : List SearchResult) :
    (assignRanksFrom i l).length = l.length := by
  induction l generalizing i with
  | nil => rfl
  | cons r rs ih => simp [assignRanksFrom, ih]

theorem map_rank_assignRanksFrom (i : Nat) (l : List SearchResult) :
    (assignRanksFrom i l).map SearchResult.rank = List.range' i l.length := by
  induction l generalizing i with
  | nil => rfl
  | cons r rs ih => simp [assignRanksFrom, List.range', ih]

/-- Every entry of `searchCore`'s output carries the score fields of
`scoreCandidate` applied to some candidate. -/
theorem searchCore_result_shape {q : String} {k : Nat} {hyb : Bool}
    {cands : List (ProcessedRecord × ℚ)} {r : SearchResult}
    (hr : r ∈ searchCore q k hyb cands) :
    ∃ p s, scoresOf r = scoresOf (scoreCandidate q hyb p s) := by
  unfold searchCore assignRanks at hr
  have h1 : scoresOf r ∈
      ((sortDesc (cands.map (fun (c : ProcessedRecord × ℚ) =>
        scoreCandidate q hyb c.1 c.2))).take k).map scoresOf := by
    rw [← scoresOf_assignRanksFrom 1]
    exact List.mem_map_of_mem scoresOf hr
  rcases List.mem_map.mp h1 with ⟨r0, hr0, hsc⟩
  have hr0' := mem_sortDesc.mp (List.take_subset _ _ hr0)
  rcases List.mem_map.mp hr0' with ⟨c, _, hc⟩
  exact ⟨c.1, c.2, by rw [← hsc, ← hc]⟩

/-- A successful `search` call returns exactly `searchCore` on the
retrieved candidates. -/
theorem search_ok {retrieve : String → Nat → List (Nat × ℚ)}
    {e : EngineState} {q : String} {k : Nat} {hyb : Bool}
    {rs : List SearchResult} (hok : search retrieve e q k hyb = .ok rs) :
    rs = searchCore q k hyb
      ((retrieve (expandQuery q) (min (k * 3) (e.facultyData.getD []).length)).filterMap
        (fun h => ((e.facultyData.getD []).get? h.1).map (fun p => (p, h.2)))) := by
  unfold search at hok
  split at hok
  · exact absurd hok (by simp)
  · exact ((Except.ok.injEq _ _).mp hok).symm

/-- Every result of a successful `search` call carries the score fields
of `scoreCandidate` applied to some retrieved candidate. -/
theorem search_result_shape {retrieve : String → Nat → List (Nat × ℚ)}
    {e : EngineState} {q : String} {k : Nat} {hyb : Bool}
    {rs : List SearchResult} (hok : search retrieve e q k hyb = .ok rs)
    {r : SearchResult} (hr : r ∈ rs) :
    ∃ p s, scoresOf r = scoresOf (scoreCandidate q hyb p s) := by
  have hrs := search_ok hok
  subst hrs
  exact searchCore_result_shape hr

theorem map_final_assignRanksFrom (i : Nat) (l : List SearchResult) :
    (assignRanksFrom i l).map SearchResult.final_score =
      l.map SearchResult.final_score := by
  induction l generalizing i with
  | nil => rfl
  | cons r rs ih => simp [assignRanksFrom, ih]

theorem pairwise_assignRanksFrom (i : Nat) {l : List SearchResult}
    (h : List.Pairwise (fun a b => b.final_score ≤ a.final_score) l) :
    List.Pairwise (fun a b => b.final_score ≤ a.final_score) (assignRanksFrom i l) := by
  have h1 : List.Pairwise (fun a b : ℚ => b ≤ a) (l.map SearchResult.final_score) :=
    List.pairwise_map.mpr h
  rw [← map_final_assignRanksFrom i] at h1
  exact List.pairwise_map.mp h1

theorem keywordMatchScore_empty_query (p : ProcessedRecord) :
    keywordMatchScore "" p = 0 := rfl

theorem boostFor_empty_query (spec : String) : boostFor "" spec = 13/10 := by
  have h : substrS (lowerS "") (lowerS spec) = true := substrChars_nil_left _
  simp [boostFor, h]

/-! ### Claim C1 — score fusion -/

/-- C1: every result of a successful `search` call satisfies
`final_score = (0.75·semantic + 0.25·keyword) × boost` when hybrid mode
is on and `keyword_score > 0`, and `final_score = semantic × boost` when
`keyword_score = 0` or hybrid mode is off. -/
theorem C1_score_fusion (retrieve : String → Nat → List (Nat × ℚ))
    (e : EngineState) (q : String) (k : Nat) (hyb : Bool)
    (rs : List SearchResult) (r : SearchResult)
    (hok : search retrieve e q k hyb = .ok rs) (hr : r ∈ rs) :
    (hyb = true ∧ 0 < r.keyword_score →
      r.final_score =
        (3/4 * r.semantic_score + 1/4 * r.keyword_score) * r.boost_applied) ∧
    (hyb = false ∨ r.keyword_score = 0 →
      r.final_score = r.semantic_score * r.boost_applied) := by
  rcases search_result_shape hok hr with ⟨p, s, hsc⟩
  have hf : r.final_score = (scoreCandidate q hyb p s).final_score :=
    congrArg (fun t => t.1) hsc
  have hs : r.semantic_score = (scoreCandidate q hyb p s).semantic_score :=
    congrArg (fun t => t.2.1) hsc
  have hk : r.keyword_score = (scoreCandidate q hyb p s).keyword_score :=
    congrArg (fun t => t.2.2.1) hsc
  have hb : r.boost_applied = (scoreCandidate q hyb p s).boost_applied :=
    congrArg (fun t => t.2.2.2.1) hsc
  rw [hf, hs, hk, hb]
  cases hyb
  · simp [scoreCandidate]
  · simp only [scoreCandidate]
    simp only [if_pos rfl, Bool.true_and, decide_eq_true_eq]
    constructor
    · rintro ⟨-, hpos⟩
      rw [if_pos hpos]
    · rintro (h | hz)
      · exact Bool.noConfusion h
      · simp only [if_true] at hz
        rw [if_neg (by simp [hz])]

/-- Witness for C1: the concrete one-candidate query `"a"` (no keywords,
so `keyword_score = 0` and the semantic-only branch applies). -/
theorem C1_score_fusion_witness :
    search retrieveOne engineOne "a" 1 true = .ok rsOne ∧ rOne ∈ rsOne ∧
    rOne.keyword_score = 0 ∧
    rOne.final_score = rOne.semantic_score * rOne.boost_applied :=
  ⟨rfl, List.Mem.head [], rfl,
   (C1_score_fusion retrieveOne engineOne "a" 1 true rsOne rOne rfl
      (List.Mem.head [])).2 (Or.inr rfl)⟩

/-! ### Claim C2 — truncation, ordering, ranks -/

/-- C2: a successful `search` call with `top_k = k ≥ 1` returns at most
`k` results, sorted by `final_score` descending, with `rank` values
forming the contiguous sequence `1..len(results)` in order. -/
theorem C2_rank_order (retrieve : String → Nat → List (Nat × ℚ))
    (e : EngineState) (q : String) (k : Nat) (hyb : Bool)
    (rs : List SearchResult) (_hk : 1 ≤ k)
    (hok : search retrieve e q k hyb = .ok rs) :
    rs.length ≤ k ∧
    List.Pairwise (fun a b => b.final_score ≤ a.final_score) rs ∧
    rs.map SearchResult.rank = List.range' 1 rs.length := by
  have hrs := search_ok hok
  subst hrs
  unfold searchCore assignRanks
  refine ⟨?_, ?_, ?_⟩
  · rw [length_assignRanksFrom, List.length_take]
    exact min_le_left _ _
  · exact pairwise_assignRanksFrom 1
      (List.Pairwise.sublist (List.take_sublist k _) (pairwise_sortDesc _))
  · rw [map_rank_assignRanksFrom, length_assignRanksFrom]

/-- Witness for C2 at the concrete one-candidate query. -/
theorem C2_rank_order_witness :
    1 ≤ 1 ∧ search retrieveOne engineOne "a" 1 true = .ok rsOne ∧
    (rsOne.length ≤ 1 ∧
     List.Pairwise (fun a b => b.final_score ≤ a.final_score) rsOne ∧
     rsOne.map SearchResult.rank = List.range' 1 rsOne.length) :=
  ⟨Nat.le_refl 1, rfl,
   C2_rank_order retrieveOne engineOne "a" 1 true rsOne (Nat.le_refl 1) rfl⟩

/-! ### Claim C3 — specialization boost -/

/-- C3: every result's `boost_applied` is the deterministic function
`boostFor` of the query and the result's specialization text; it is
either 1 or 1.3, and it is 1.3 exactly when the lower-cased query is a
substring of the lower-cased specialization or some whitespace-split
token of the lower-cased query is. -/
theorem C3_boost (retrieve : String → Nat → List (Nat × ℚ))
    (e : EngineState) (q : String) (k : Nat) (hyb : Bool)
    (rs : List SearchResult) (r : SearchResult)
    (hok : search retrieve e q k hyb = .ok rs) (hr : r ∈ rs) :
    r.boost_applied = boostFor q r.specialization ∧
    (r.boost_applied = 1 ∨ r.boost_applied = 13/10) ∧
    (r.boost_applied = 13/10 ↔
      (substrS (lowerS q) (lowerS r.specialization)
        || (splitWsS (lowerS q)).any
             (fun w => substrS w (lowerS r.specialization))) = true) := by
  rcases search_result_shape hok hr with ⟨p, s, hsc⟩
  have hb : r.boost_applied = (scoreCandidate q hyb p s).boost_applied :=
    congrArg (fun t => t.2.2.2.1) hsc
  have hsp : r.specialization = (scoreCandidate q hyb p s).specialization :=
    congrArg (fun t => t.2.2.2.2) hsc
  simp only [scoreCandidate] at hb hsp
  rw [hb, hsp]
  refine ⟨rfl, ?_, ?_⟩
  · simp only [boostFor]
    split
    · right; rfl
    · left; rfl
  · simp only [boostFor]
    split
    · next h => simp [h]
    · next h =>
      constructor
      · intro h1
        exact absurd h1 (by norm_num)
      · intro h1
        exact absurd h1 h

/-- Witness for C3 at the concrete one-candidate query `"a"` (the token
`"a"` occurs in the specialization, so the boost is 1.3). -/
theorem C3_boost_witness :
    search retrieveOne engineOne "a" 1 true = .ok rsOne ∧ rOne ∈ rsOne ∧
    (rOne.boost_applied = boostFor "a" rOne.specialization ∧
     (rOne.boost_applied = 1 ∨ rOne.boost_applied = 13/10) ∧
     (rOne.boost_applied = 13/10 ↔
       (substrS (lowerS "a") (lowerS rOne.specialization)
         || (splitWsS (lowerS "a")).any
              (fun w => substrS w (lowerS rOne.specialization))) = true)) :=
  ⟨rfl, List.Mem.head [],
   C3_boost retrieveOne engineOne "a" 1 true rsOne rOne rfl (List.Mem.head [])⟩

/-! ### Claim C4 — no empty-query rejection (corrected) -/

/-- C4 counterexample: on an initialized engine the empty query is not
rejected — `search` returns a normal (`ok`) result list, so the claimed
caller-input error before the ranking pipeline does not exist. -/
theorem C4_empty_query_cex :
    search retrieveOne engineOne "" 5 true = .ok rsEmptyQ := rfl

/-- C4 (amended): `search` performs no empty-query validation; its only
check is the initialization check, and on an initialized engine the
empty-query call runs the full ranking pipeline (query expansion,
retrieval, scoring) and returns its output. -/
theorem C4_no_empty_query_check (retrieve : String → Nat → List (Nat × ℚ))
    (e : EngineState) (k : Nat) (hyb : Bool)
    (hm : e.model = true) (hi : e.index ≠ none) :
    search retrieve e "" k hyb =
      .ok (searchCore "" k hyb
        ((retrieve (expandQuery "") (min (k * 3) (e.facultyData.getD []).length)).filterMap
          (fun h => ((e.facultyData.getD []).get? h.1).map (fun p => (p, h.2))))) := by
  unfold search
  rw [if_neg]
  rintro (h | h)
  · rw [hm] at h
    exact Bool.noConfusion h
  · exact hi h

/-- Witness for C4 on the concrete initialized engine. -/
theorem C4_no_empty_query_check_witness :
    engineOne.model = true ∧ engineOne.index ≠ none ∧
    search retrieveOne engineOne "" 5 true =
      .ok (searchCore "" 5 true
        ((retrieveOne (expandQuery "")
            (min (5 * 3) (engineOne.facultyData.getD []).length)).filterMap
          (fun h => ((engineOne.facultyData.getD []).get? h.1).map (fun p => (p, h.2))))) :=
  ⟨rfl, by decide,
   C4_no_empty_query_check retrieveOne engineOne 5 true rfl (by decide)⟩

/-! ### Claim C10 — empty query runs the pipeline -/

/-- C10: on an initialized engine with a non-empty record set, the
empty-query call does not raise: it returns a result list in which every
result has `keyword_score = 0` and `boost_applied = 1.3` (the empty
lower-cased query is a substring of every specialization text). -/
theorem C10_empty_query_scores (retrieve : String → Nat → List (Nat × ℚ))
    (e : EngineState) (k : Nat) (hyb : Bool)
    (hm : e.model = true) (hi : e.index ≠ none)
    (_hd : e.facultyData.getD [] ≠ []) :
    ∃ rs, search retrieve e "" k hyb = .ok rs ∧
      ∀ r ∈ rs, r.keyword_score = 0 ∧ r.boost_applied = 13/10 := by
  refine ⟨searchCore "" k hyb
    ((retrieve (expandQuery "") (min (k * 3) (e.facultyData.getD []).length)).filterMap
      (fun h => ((e.facultyData.getD []).get? h.1).map (fun p => (p, h.2)))), ?_, ?_⟩
  · unfold search
    rw [if_neg]
    rintro (h | h)
    · rw [hm] at h
      exact Bool.noConfusion h
    · exact hi h
  · intro r hr
    rcases searchCore_result_shape hr with ⟨p, s, hsc⟩
    have hk : r.keyword_score = (scoreCandidate "" hyb p s).keyword_score :=
      congrArg (fun t => t.2.2.1) hsc
    have hb : r.boost_applied = (scoreCandidate "" hyb p s).boost_applied :=
      congrArg (fun t => t.2.2.2.1) hsc
    simp only [scoreCandidate] at hk hb
    constructor
    · rw [hk]
      cases hyb <;> simp [keywordMatchScore_empty_query]
    · rw [hb]
      exact boostFor_empty_query _

/-- Witness for C10 on the concrete initialized one-record engine. -/
theorem C10_empty_query_scores_witness :
    engineOne.model = true ∧ engineOne.index ≠ none ∧
    engineOne.facultyData.getD [] ≠ [] ∧
    (∃ rs, search retrieveOne engineOne "" 7 true = .ok rs ∧
      ∀ r ∈ rs, r.keyword_score = 0 ∧ r.boost_applied = 13/10) :=
  ⟨rfl, by decide, by decide,
   C10_empty_query_scores retrieveOne engineOne 7 true rfl (by decide) (by decide)⟩

/-! ### Claim C9 — behavior before a build (corrected) -/

/-- C9 counterexample: `get_statistics` on the fresh (pre-build) engine
state does not fail — it returns a normal statistics mapping with zero
counts, contradicting the claim that it fails with `NotInitialized`. -/
theorem C9_stats_before_build_cex :
    get_statistics "all-MiniLM-L6-v2" freshEngine =
      { total_faculty := 0, embedding_dimension := 0,
        model_name := "all-MiniLM-L6-v2", index_size := 0,
        multi_field_embeddings := false, coverage := [] } := rfl

/-- C9 (amended): before a successful build, `search` fails with the
`NotInitialized` error (an error value, fatal to the call only), while
`get_statistics` does not fail — it returns a statistics mapping with
zero counts and no coverage rows. -/
theorem C9_before_build (retrieve : String → Nat → List (Nat × ℚ))
    (e : EngineState) (q : String) (k : Nat) (hyb : Bool) (m : String)
    (hm : e.model = false) (hi : e.index = none) (hd : e.facultyData = none)
    (he : e.embDim = none) (hmf : e.multiField = false) :
    search retrieve e q k hyb = Except.error SearchErr.notInit ∧
    get_statistics m e =
      { total_faculty := 0, embedding_dimension := 0, model_name := m,
        index_size := 0, multi_field_embeddings := false, coverage := [] } := by
  constructor
  · unfold search
    rw [if_pos (Or.inl hm)]
  · simp [get_statistics, hd, he, hi, hmf]

/-- Witness for C9 at the fresh engine state. -/
theorem C9_before_build_witness :
    search retrieveOne freshEngine "ml" 5 true = Except.error SearchErr.notInit ∧
    get_statistics "all-MiniLM-L6-v2" freshEngine =
      { total_faculty := 0, embedding_dimension := 0,
        model_name := "all-MiniLM-L6-v2", index_size := 0,
        multi_field_embeddings := false, coverage := [] } :=
  C9_before_build retrieveOne freshEngine "ml" 5 true "all-MiniLM-L6-v2"
    rfl rfl rfl rfl rfl

/-! ### Claim C8 — weighted aggregate embedding -/

/-- C8: in multi-field mode every record's aggregate embedding equals the
weighted sum of its per-field embeddings divided by the sum of the
weights of the fields actually present (all five fields have text
columns, so all are present), and the coefficients over the present
fields sum to 1 — a convex combination. -/
theorem C8_convex_aggregate (d : Nat) (emb : String → Vec d) (i : Fin d) :
    generateEmbMulti d emb i =
      (3 * emb "specialization" i + 2 * emb "publications" i +
       2 * emb "biography" i + 3/2 * emb "education" i + 1/2 * emb "name" i) /
        presentWeightSum fieldPresent ∧
    ((fieldWeights.filter (fun fw => fieldPresent fw.1)).map
      (fun fw => fw.2 / presentWeightSum fieldPresent)).sum = 1 := by
  have hs : fieldPresent "specialization" = true := by decide
  have hp : fieldPresent "publications" = true := by decide
  have hb : fieldPresent "biography" = true := by decide
  have he : fieldPresent "education" = true := by decide
  have hn : fieldPresent "name" = true := by decide
  have hw : presentWeightSum fieldPresent = 9 := by
    simp [presentWeightSum, fieldWeights, List.filter, hs, hp, hb, he, hn]
    norm_num
  have ht : totalWeight = 9 := by
    norm_num [totalWeight, fieldWeights]
  constructor
  · simp only [generateEmbMulti, aggregateEmb, fieldWeights, List.foldl,
      hs, hp, hb, he, hn, if_true, vecAdd, vecSMul, vecZero, ht, hw]
    ring
  · simp [fieldWeights, List.filter, hs, hp, hb, he, hn, hw]
    norm_num

/-! ### Claim C5 — normalization and the zero-norm clamp (corrected) -/

/-- C5 counterexample: the claim says the query vector in `search` is
normalized the same way as in `build_index`; on the zero vector the
`build_index` divisor is clamped to 1 while the `search` query divisor
is the raw norm 0, so the query path divides zero by zero (NaN). -/
theorem C5_query_divisor_cex :
    queryDivisor [(0 : ℝ), 0] = 0 ∧ buildDivisor [(0 : ℝ), 0] = 1 := by
  have h : euclidNorm [(0 : ℝ), 0] = 0 := by
    norm_num [euclidNorm, sumSq]
  exact ⟨h, by simp [buildDivisor, h]⟩

/-- C5 (amended): `build_index` divides by the Euclidean norm with zero
norms clamped to divisor 1 — the divisor is never zero, a zero-norm
vector is returned unchanged, and a non-zero norm divides as usual; but
the query embedding in `search` is divided by the raw, unclamped norm,
which is 0 for a zero query embedding (0/0, a NaN). -/
theorem C5_normalize (v : List ℝ) :
    buildDivisor v ≠ 0 ∧
    (euclidNorm v = 0 → buildNormalize v = v) ∧
    (euclidNorm v ≠ 0 → buildNormalize v = v.map (fun x => x / euclidNorm v)) ∧
    (euclidNorm v = 0 → queryDivisor v = 0) := by
  refine ⟨?_, ?_, ?_, fun h => h⟩
  · unfold buildDivisor
    split
    · exact one_ne_zero
    · next h => exact h
  · intro h
    unfold buildNormalize buildDivisor
    rw [if_pos h]
    simp
  · intro h
    unfold buildNormalize buildDivisor
    rw [if_neg h]

/-- Witness for C5 at the zero vector of dimension 2. -/
theorem C5_normalize_witness :
    buildDivisor [(0 : ℝ), 0] ≠ 0 ∧ euclidNorm [(0 : ℝ), 0] = 0 ∧
    buildNormalize [(0 : ℝ), 0] = [0, 0] ∧ queryDivisor [(0 : ℝ), 0] = 0 := by
  have h : euclidNorm [(0 : ℝ), 0] = 0 := by
    norm_num [euclidNorm, sumSq]
  exact ⟨(C5_normalize [0, 0]).1, h, (C5_normalize [0, 0]).2.1 h,
    (C5_normalize [0, 0]).2.2.2 h⟩

end FacultySearch
